import Mathlib

/-
Verification of the artist-resolution pipeline of the week-6 repository
(src/apputil.py, src/app.py, src/build_artist_dataset.py).

The Python code is shallowly embedded: JSON payloads become the inductive
type `JVal`, the remote Genius API becomes an explicit `RemoteAPI` record
whose operations return success or one of the failure variants the code
can observe (timeout, connection error, non-2xx status, malformed body),
and side effects (network calls, the Streamlit cache, the thread pool)
become explicit data threaded through the definitions.
-/

namespace Week6

/-- A JSON value, as produced by `requests.Response.json()`. -/
inductive JVal where
  | jnull
  | jbool (b : Bool)
  | jnum (n : Int)
  | jstr (s : String)
  | jarr (xs : List JVal)
  | jobj (fields : List (String × JVal))

/-- Python `d.get(k)` on a dict: `none` when the key is absent, when the
stored value is JSON `null` (Python `None`), or when the receiver is not a
dict.  (In the source a non-dict receiver raises `AttributeError`, which
every call site catches and turns into the same all-null row this
embedding produces, so the observable rows agree.) -/
def pyDictGet (v : JVal) (k : String) : Option JVal :=
  match v with
  | .jobj fs =>
    match fs.lookup k with
    | some .jnull => none
    | some w => some w
    | none => none
  | _ => none

/-- Python `d.get(k, default)` where the default is returned for a missing
key or a non-dict receiver. -/
def jGetD (v : JVal) (k : String) (d : JVal) : JVal :=
  match v with
  | .jobj fs =>
    match fs.lookup k with
    | some w => w
    | none => d
  | _ => d

/-- Python truthiness of a JSON value. -/
def JVal.truthy : JVal → Bool
  | .jnull => false
  | .jbool b => b
  | .jnum n => n != 0
  | .jstr s => s != ""
  | .jarr xs => !xs.isEmpty
  | .jobj fs => !fs.isEmpty

/-- Truthiness of an optional JSON value (Python `if info:` where `info`
may be `None`). -/
def pyTruthy : Option JVal → Bool
  | none => false
  | some v => v.truthy

/-- `(artist or {}).get(k)` from app.py's `fetch_batch`. -/
def optGet (v : Option JVal) (k : String) : Option JVal :=
  match v with
  | some w => pyDictGet w k
  | none => none

/-- Characters kept by the regex `[^a-z0-9]+` after lower-casing. -/
def isLowerAlnum (c : Char) : Bool :=
  ('a' ≤ c && c ≤ 'z') || ('0' ≤ c && c ≤ '9')

/-- Replace every maximal run of non-alphanumeric characters by a single
space (the effect of `re.sub(r"[^a-z0-9]+", " ", s)` on a lower-cased
string).  The boolean records whether the previous character was emitted
as part of such a run. -/
def squeezeAux : Bool → List Char → List Char
  | _, [] => []
  | prevRun, c :: cs =>
    if isLowerAlnum c then c :: squeezeAux false cs
    else if prevRun then squeezeAux true cs
    else ' ' :: squeezeAux true cs

/-- Python `s.strip()`: drop leading and trailing whitespace. -/
def pyStrip (s : String) : String :=
  String.mk
    (((s.data.dropWhile Char.isWhitespace).reverse.dropWhile
        Char.isWhitespace).reverse)

/-- `Genius._norm` (apputil.py lines 45-48):
`re.sub(r"[^a-z0-9]+", " ", s.lower()).strip()`.
Lower-casing is `Char.toLower` (ASCII); every non-ASCII character is
replaced by a space by the regex in either reading, so the composition
agrees with the source on the characters it distinguishes. -/
def _norm (s : String) : String :=
  pyStrip (String.mk (squeezeAux false (s.data.map Char.toLower)))

/-- The `primary_artist` object of one search hit, restricted to the
fields the source reads: `name` (always accessed) and `id`
(`primary.get("id")`, where `none` models both a missing key and JSON
null). -/
structure PrimaryArtist where
  name : String
  id : Option Int
  deriving Repr, DecidableEq

/-- The `result` object of one search hit. -/
structure HitResult where
  primary_artist : PrimaryArtist
  deriving Repr, DecidableEq

/-- One entry of `response.hits` from the `/search` endpoint. -/
structure Hit where
  result : HitResult
  deriving Repr, DecidableEq

/-- Python `n.startswith(q)` on lists of characters. -/
def charsStart : List Char → List Char → Bool
  | _, [] => true
  | [], _ :: _ => false
  | a :: as, b :: bs => (a == b) && charsStart as bs

/-- Python `q in n` (substring containment) on lists of characters. -/
def charsHasSub (needle : List Char) : List Char → Bool
  | [] => needle.isEmpty
  | c :: t => charsStart (c :: t) needle || charsHasSub needle t

/-- Python `n.startswith(q)`. -/
def pyStarts (n q : String) : Bool := charsStart n.data q.data

/-- Python `q in n` for strings. -/
def pyIn (q n : String) : Bool := charsHasSub q.data n.data

/-- Worker for `pyWords`: `cur` is the current word, reversed. -/
def wordsAux (cur : List Char) : List Char → List String
  | [] => if cur.isEmpty then [] else [String.mk cur.reverse]
  | c :: cs =>
    if c.isWhitespace then
      if cur.isEmpty then wordsAux [] cs
      else String.mk cur.reverse :: wordsAux [] cs
    else wordsAux (c :: cur) cs

/-- Python `n.split()`: split on whitespace runs, dropping empty pieces. -/
def pyWords (n : String) : List String := wordsAux [] n.data

/-- The `score` closure of `Genius._pick_best_artist` (apputil.py lines
57-67), with `q` the already-normalized search term.  The second
component is `-len(name)` of the raw display name. -/
def score (q : String) (hit : Hit) : Nat × Int :=
  let name := hit.result.primary_artist.name
  let n := _norm name
  if n = q then (3, -(name.length : Int))
  else if pyStarts n q || (pyWords n).contains q then (2, -(name.length : Int))
  else if pyIn q n then (1, -(name.length : Int))
  else (0, -(name.length : Int))

/-- Strict lexicographic order on score tuples, i.e. Python `<` on the
pairs returned by `score`. -/
def tupLt (a b : Nat × Int) : Prop :=
  a.1 < b.1 ∨ (a.1 = b.1 ∧ a.2 < b.2)

instance (a b : Nat × Int) : Decidable (tupLt a b) := by
  unfold tupLt; infer_instance

/-- Non-strict lexicographic order on score tuples. -/
def tupLe (a b : Nat × Int) : Prop :=
  a.1 < b.1 ∨ (a.1 = b.1 ∧ a.2 ≤ b.2)

/-- Python `max(hits, key=f)`: scan left to right, replacing the current
best only on a strictly larger key, so the leftmost maximum wins. -/
def pyMax {α : Type} (f : α → Nat × Int) (h : α) : List α → α
  | [] => h
  | x :: t => pyMax f (if tupLt (f h) (f x) then x else h) t

/-- `Genius._pick_best_artist` (apputil.py lines 50-70). -/
def _pick_best_artist (search_term : String) (hits : List Hit) :
    Option PrimaryArtist :=
  match hits with
  | [] => none
  | h :: t => some (pyMax (score (_norm search_term)) h t).result.primary_artist

/-- One remote round-trip, as observed by `Genius.get_artist`: either a
successfully parsed 2xx body, or one of the failure modes the code
converts to an exception — `requests` timeout, connection failure, a
non-2xx status (raised by `raise_for_status`), or a body that fails JSON
parsing / lacks the expected shape. -/
inductive ApiResult (α : Type) where
  | ok (v : α)
  | timeout
  | connFailure
  | httpStatus (code : Nat)
  | badPayload
  deriving Repr, DecidableEq

/-- The remote Genius API as the black box `get_artist` talks to:
`search` yields the `response.hits` list of a `/search` call and
`fetchArtist` the full JSON payload of a `/artists/{id}` call. -/
structure RemoteAPI where
  search : String → ApiResult (List Hit)
  fetchArtist : Int → ApiResult JVal

/-- One network call issued by `get_artist`, in issue order. -/
inductive ApiCall where
  | search (q : String)
  | fetchArtist (id : Int)
  deriving Repr, DecidableEq

/-- `Genius.get_artist` (apputil.py lines 73-109).  Returns the value the
Python function returns (the full `/artists/{id}` payload, or `None`)
together with the list of network calls it issued.  The surrounding
`try/except Exception: return None` is the translation of every failure
variant to `none`. -/
def get_artist (api : RemoteAPI) (search_term : String) :
    Option JVal × List ApiCall :=
  match api.search search_term with
  | .timeout | .connFailure | .httpStatus _ | .badPayload =>
    (none, [.search search_term])
  | .ok hits =>
    match _pick_best_artist search_term hits with
    | none => (none, [.search search_term])
    | some primary =>
      match primary.id with
      | none => (none, [.search search_term])
      | some artist_id =>
        match api.fetchArtist artist_id with
        | .timeout | .connFailure | .httpStatus _ | .badPayload =>
          (none, [.search search_term, .fetchArtist artist_id])
        | .ok payload => (some payload, [.search search_term, .fetchArtist artist_id])

/-- A row of the four-column table built by `Genius.get_artists` and by
`build_artist_dataset._worker`. -/
structure WRow where
  search_term : String
  artist_name : Option JVal
  artist_id : Option JVal
  followers_count : Option JVal

/-- `build_artist_dataset._worker` (build_artist_dataset.py lines 28-41),
with `get` the per-term result of `Genius.get_artist`.  The fields are
read directly off the returned payload: `info.get("name") if info else
None`, and likewise for `id` and `followers_count`. -/
def _worker (get : String → Option JVal) (term : String) : WRow :=
  let info := get term
  { search_term := term
    artist_name := if pyTruthy info then optGet info "name" else none
    artist_id := if pyTruthy info then optGet info "id" else none
    followers_count := if pyTruthy info then optGet info "followers_count" else none }

/-- One row of `Genius.get_artists` (apputil.py lines 117-139): the
payload is first unwrapped with
`payload.get("response", {}).get("artist", {}) if isinstance(payload, dict) else {}`
and the fields are read off the inner artist object. -/
def get_artists_row (get : String → Option JVal) (term : String) : WRow :=
  let payload := get term
  let artist : JVal :=
    match payload with
    | some (.jobj fs) => jGetD (jGetD (.jobj fs) "response" (.jobj [])) "artist" (.jobj [])
    | _ => .jobj []
  { search_term := term
    artist_name := pyDictGet artist "name"
    artist_id := pyDictGet artist "id"
    followers_count := pyDictGet artist "followers_count" }

/-- `Genius.get_artists` (apputil.py lines 112-144): one row per search
term, in input order. -/
def get_artists (get : String → Option JVal) (search_terms : List String) :
    List WRow :=
  search_terms.map (get_artists_row get)

/-- A row of the six-column table built by `app.fetch_batch`. -/
structure ResultRow where
  search_term : String
  artist_name : Option JVal
  artist_id : Option JVal
  followers_count : Option JVal
  url : Option JVal
  image_url : Option JVal

/-- The row `fetch_batch` appends for one completed future (app.py lines
67-75): every artist field is `(artist or {}).get(...)` on the payload
returned by `cached_get_artist`. -/
def rowOf (resolve : String → Option JVal) (name : String) : ResultRow :=
  let artist := resolve name
  { search_term := name
    artist_name := optGet artist "name"
    artist_id := optGet artist "id"
    followers_count := optGet artist "followers_count"
    url := optGet artist "url"
    image_url := optGet artist "image_url" }

/-- The stripped names `fetch_batch` submits to the executor (app.py
lines 59-60): `a.strip()` for each input with `a and a.strip()` truthy,
in submission order. -/
def usableTerms (artists : List String) : List String :=
  (artists.filter (fun a => pyStrip a != "")).map pyStrip

/-- `app.fetch_batch` (app.py lines 56-89).  One future is submitted per
usable input name; `cf.as_completed` then yields the futures in an
arbitrary completion order, modelled by the index list `order`: the row
for the `i`-th submitted name is appended when `order` mentions `i`.
The returned table is the row list in that append order — the source
never re-sorts it. -/
def fetch_batch (resolve : String → Option JVal) (artists : List String)
    (order : List Nat) : List ResultRow :=
  order.filterMap fun i => ((usableTerms artists).get? i).map (rowOf resolve)

/-- The default of `fetch_batch`'s `max_workers` parameter (app.py line
56: `max_workers: int = 6`). -/
def fetch_batch_default_workers : Nat := 6

/-- A Streamlit slider configuration: minimum, maximum, initial value. -/
structure SliderConfig where
  minVal : Nat
  maxVal : Nat
  initial : Nat
  deriving Repr, DecidableEq

/-- app.py line 113: `st.slider("Parallel workers", 1, 16, 6)`. -/
def parallel_workers_slider : SliderConfig :=
  { minVal := 1, maxVal := 16, initial := 6 }

/-- One entry of the `st.cache_data` store backing `cached_get_artist`:
the memoised return value and the time it was stored. -/
structure CacheEntry where
  val : Option JVal
  ts : Nat

/-- The memo table of `st.cache_data`, keyed by the function argument. -/
def CacheMap : Type := List (String × CacheEntry)

/-- `app.cached_get_artist` (app.py lines 49-53) under its
`@st.cache_data(ttl=600)` decorator: the memo key is the argument string
itself.  Returns the result, the updated store, and how many times the
underlying resolver ran (0 on a live hit, 1 on a miss or an expired
entry). -/
def cached_get_artist (resolve : String → Option JVal) (ttl now : Nat)
    (c : CacheMap) (name : String) : Option JVal × CacheMap × Nat :=
  match List.lookup name c with
  | some e =>
    if now < e.ts + ttl then (e.val, c, 0)
    else
      let v := resolve name
      (v, ((name, ⟨v, now⟩) :: c : List (String × CacheEntry)), 1)
  | none =>
    let v := resolve name
    (v, ((name, ⟨v, now⟩) :: c : List (String × CacheEntry)), 1)

/-- The ttl passed to `st.cache_data` on app.py line 50. -/
def cache_ttl : Nat := 600

/-- State of the `ThreadPoolExecutor` driving `fetch_batch`: task indices
not yet started, currently running, and finished. -/
structure PoolState where
  pending : List Nat
  running : List Nat
  finished : List Nat

/-- One scheduler step of a thread pool with `k` workers: a pending task
may start only while fewer than `k` tasks run, and a running task may
finish at any time.  This is the documented contract of
`concurrent.futures.ThreadPoolExecutor(max_workers=k)`. -/
inductive PoolStep (k : Nat) : PoolState → PoolState → Prop where
  | start (t : Nat) (rest : List Nat) (s : PoolState)
      (hp : s.pending = t :: rest) (hr : s.running.length < k) :
      PoolStep k s ⟨rest, t :: s.running, s.finished⟩
  | finish (t : Nat) (s : PoolState) (ht : t ∈ s.running) :
      PoolStep k s ⟨s.pending, s.running.erase t, t :: s.finished⟩

/-- The pool before any task starts. -/
def initPool (tasks : List Nat) : PoolState := ⟨tasks, [], []⟩

/-- States a `k`-worker pool can reach from `initPool tasks`. -/
inductive PoolReachable (k : Nat) (tasks : List Nat) : PoolState → Prop where
  | init : PoolReachable k tasks (initPool tasks)
  | step {s t : PoolState} : PoolReachable k tasks s → PoolStep k s t →
      PoolReachable k tasks t

/-- Split a character list at newlines; `cur` is the current line,
reversed.  Every `\n` ends a line, so a trailing newline contributes a
final empty piece. -/
def splitNlAux (cur : List Char) : List Char → List String
  | [] => [String.mk cur.reverse]
  | c :: cs =>
    if c = '\n' then String.mk cur.reverse :: splitNlAux [] cs
    else splitNlAux (c :: cur) cs

/-- Python `str.splitlines` for newline-separated text: split at every
`\n`, except that a trailing newline does not contribute an empty final
line. -/
def pySplitlines (s : String) : List String :=
  let parts := splitNlAux [] s.data
  if parts.getLast? = some "" then parts.dropLast else parts

/-- The list-comprehension filter of `read_artists`
(build_artist_dataset.py line 19):
`[ln.strip() for ln in lines if ln.strip() and not ln.startswith("#")]`. -/
def usableArtists (contents : String) : List String :=
  ((pySplitlines contents).filter
      (fun ln => pyStrip ln != "" && !pyStarts ln "#")).map pyStrip

/-- `build_artist_dataset.read_artists` (build_artist_dataset.py lines
12-25) applied to the decoded file contents: the `FileNotFoundError` and
`ValueError` raises become `Except.error`. -/
def read_artists (contents : String) : Except String (List String) :=
  let artists := usableArtists contents
  if artists.isEmpty then
    .error "No artist names parsed - check encoding or blank lines."
  else
    .ok artists

/-- A resolver stub that finds nothing (every lookup yields `None`). -/
def noResolver : String → Option JVal := fun _ => none

/-- The inner `artist` object of a concrete `/artists/604` payload. -/
def rhArtistObj : JVal :=
  .jobj [("name", .jstr "Radiohead"), ("id", .jnum 604),
         ("followers_count", .jnum 12345),
         ("url", .jstr "https://genius.com/artists/Radiohead"),
         ("image_url", .jstr "https://images.genius.com/rh.jpg")]

/-- A concrete full `/artists/{id}` payload as `get_artist` returns it:
the artist record sits under the top-level `response` key. -/
def rhPayload : JVal :=
  .jobj [("meta", .jobj [("status", .jnum 200)]),
         ("response", .jobj [("artist", rhArtistObj)])]

/-- The single search hit of the concrete scenario. -/
def rhHit : Hit := ⟨⟨⟨"Radiohead", some 604⟩⟩⟩

/-- A concrete deterministic remote API: searching anything yields the
Radiohead hit, and fetching id 604 yields `rhPayload`. -/
def rhApi : RemoteAPI :=
  { search := fun _ => .ok [rhHit]
    fetchArtist := fun i => if i = 604 then .ok rhPayload else .badPayload }

/-- A remote API whose search call times out. -/
def downApi : RemoteAPI :=
  { search := fun _ => .timeout, fetchArtist := fun _ => .timeout }

/-- A remote API whose search succeeds but whose detail fetch returns a
503 status. -/
def flakyApi : RemoteAPI :=
  { search := fun _ => .ok [rhHit], fetchArtist := fun _ => .httpStatus 503 }

/-- A remote API whose single hit carries no usable `id`. -/
def noIdApi : RemoteAPI :=
  { search := fun _ => .ok [⟨⟨⟨"Radiohead", none⟩⟩⟩]
    fetchArtist := fun _ => .ok rhPayload }

/-- The spec's own matcher example: hits for the query `"u2"`, with the
exact match listed second. -/
def u2Hits : List Hit :=
  [⟨⟨⟨"U2 Tribute Band", some 2⟩⟩⟩, ⟨⟨⟨"U2", some 1⟩⟩⟩]

theorem tupLe_refl (a : Nat × Int) : tupLe a a := Or.inr ⟨rfl, le_refl _⟩

theorem tupLt_le {a b : Nat × Int} (h : tupLt a b) : tupLe a b := by
  unfold tupLt at h; unfold tupLe; omega

theorem not_tupLt_le {a b : Nat × Int} (h : ¬ tupLt a b) : tupLe b a := by
  unfold tupLt at h; unfold tupLe; omega

theorem tupLe_trans {a b c : Nat × Int} (h1 : tupLe a b) (h2 : tupLe b c) :
    tupLe a c := by
  unfold tupLe at *; omega

theorem pyMax_mem {α : Type} (f : α → Nat × Int) (h : α) (t : List α) :
    pyMax f h t ∈ h :: t := by
  induction t generalizing h with
  | nil => simp [pyMax]
  | cons x t ih =>
    rw [pyMax]
    by_cases hc : tupLt (f h) (f x)
    · rw [if_pos hc]
      rcases List.mem_cons.mp (ih x) with h1 | h1
      · simp [h1]
      · simp [List.mem_cons, h1]
    · rw [if_neg hc]
      rcases List.mem_cons.mp (ih h) with h1 | h1
      · simp [h1]
      · simp [List.mem_cons, h1]

theorem pyMax_ge {α : Type} (f : α → Nat × Int) (h : α) (t : List α) :
    ∀ x ∈ h :: t, tupLe (f x) (f (pyMax f h t)) := by
  induction t generalizing h with
  | nil =>
    intro x hx
    rcases List.mem_cons.mp hx with rfl | hx'
    · exact tupLe_refl _
    · simp at hx'
  | cons y t ih =>
    intro x hx
    rw [pyMax]
    have hstep : tupLe (f h) (f (if tupLt (f h) (f y) then y else h)) ∧
        tupLe (f y) (f (if tupLt (f h) (f y) then y else h)) := by
      by_cases hc : tupLt (f h) (f y)
      · rw [if_pos hc]; exact ⟨tupLt_le hc, tupLe_refl _⟩
      · rw [if_neg hc]; exact ⟨tupLe_refl _, not_tupLt_le hc⟩
    have hhead := ih (if tupLt (f h) (f y) then y else h) _
      (List.mem_cons_self _ _)
    rcases List.mem_cons.mp hx with rfl | hx'
    · exact tupLe_trans hstep.1 hhead
    rcases List.mem_cons.mp hx' with rfl | hx''
    · exact tupLe_trans hstep.2 hhead
    · exact ih _ x (List.mem_cons_of_mem _ hx'')

theorem score_fst_le_three (q : String) (hit : Hit) : (score q hit).1 ≤ 3 := by
  unfold score; dsimp only; split_ifs <;> simp

theorem score_fst_eq_three (q : String) (hit : Hit) :
    (score q hit).1 = 3 ↔ _norm hit.result.primary_artist.name = q := by
  unfold score; dsimp only; split_ifs with h1 h2 h3 <;> simp [h1]

theorem score_snd (q : String) (hit : Hit) :
    (score q hit).2 = -(hit.result.primary_artist.name.length : Int) := by
  unfold score; dsimp only; split_ifs <;> rfl

theorem mem_lt_of_perm_range {order : List Nat} {n : Nat}
    (hperm : order.Perm (List.range n)) : ∀ i ∈ order, i < n := by
  intro i hi
  exact List.mem_range.mp (hperm.mem_iff.mp hi)

theorem filterMap_get_range {α β : Type} (f : α → β) (terms : List α) :
    (List.range terms.length).filterMap (fun i => (terms.get? i).map f)
      = terms.map f := by
  induction terms with
  | nil => rfl
  | cons t ts ih =>
    have hcomp : ((fun i => (((t :: ts).get? i).map f)) ∘ Nat.succ)
        = fun i => ((ts.get? i).map f) := by
      funext i; rfl
    rw [List.length_cons, List.range_succ_eq_map, List.filterMap_cons,
        List.filterMap_map, hcomp, ih]
    rfl

theorem fb_row_at_index {α β : Type} (f : α → β) (terms : List α) :
    ∀ (order : List Nat), (∀ i ∈ order, i < terms.length) →
      ∀ j i, order.get? j = some i →
        ∃ t, terms.get? i = some t ∧
          (order.filterMap (fun i => (terms.get? i).map f)).get? j
            = some (f t) := by
  intro order
  induction order with
  | nil => intro _ j i hj; simp at hj
  | cons a rest ih =>
    intro hlt j i hj
    have ha : a < terms.length := hlt a (List.mem_cons_self _ _)
    have hta : terms.get? a = some (terms.get ⟨a, ha⟩) := List.get?_eq_get ha
    have hfm : (a :: rest).filterMap (fun i => (terms.get? i).map f)
        = f (terms.get ⟨a, ha⟩)
          :: rest.filterMap (fun i => (terms.get? i).map f) := by
      rw [List.filterMap_cons, hta]; rfl
    cases j with
    | zero =>
      simp only [List.get?] at hj
      cases hj
      exact ⟨terms.get ⟨a, ha⟩, hta, by rw [hfm]; rfl⟩
    | succ j =>
      simp only [List.get?] at hj
      obtain ⟨t, ht, hrow⟩ :=
        ih (fun i hi => hlt i (List.mem_cons_of_mem _ hi)) j i hj
      exact ⟨t, ht, by rw [hfm]; simpa using hrow⟩


/-- C4: for every query string and non-empty hit list,
`_pick_best_artist` returns the `primary_artist` of a hit of the list
whose score tuple `(tier, -len(raw name))` is maximal; consequently a hit
whose normalized name equals the normalized query is selected whenever
one exists, and among hits of the selected tier the raw display name of
the winner is shortest.  Selection is a pure function of the input list,
hence deterministic for a fixed list order. -/
theorem pick_best_maximizes (search_term : String) (hits : List Hit)
    (hne : hits ≠ []) :
    ∃ best ∈ hits,
      _pick_best_artist search_term hits = some best.result.primary_artist ∧
      (∀ h ∈ hits, tupLe (score (_norm search_term) h)
        (score (_norm search_term) best)) ∧
      ((∃ e ∈ hits, _norm e.result.primary_artist.name = _norm search_term) →
        _norm best.result.primary_artist.name = _norm search_term) ∧
      (∀ h ∈ hits,
        (score (_norm search_term) h).1 = (score (_norm search_term) best).1 →
        best.result.primary_artist.name.length
          ≤ h.result.primary_artist.name.length) := by
  match hits with
  | [] => exact absurd rfl hne
  | h :: t =>
    refine ⟨pyMax (score (_norm search_term)) h t,
      pyMax_mem _ h t, rfl, pyMax_ge _ h t, ?_, ?_⟩
    · rintro ⟨e, he, hexact⟩
      have hesc : (score (_norm search_term) e).1 = 3 :=
        (score_fst_eq_three _ e).mpr hexact
      have hle := pyMax_ge (score (_norm search_term)) h t e he
      have hmax3 : (score (_norm search_term)
          (pyMax (score (_norm search_term)) h t)).1 = 3 := by
        have hub := score_fst_le_three (_norm search_term)
          (pyMax (score (_norm search_term)) h t)
        unfold tupLe at hle
        omega
      exact (score_fst_eq_three _ _).mp hmax3
    · intro h' hh' htier
      have hle := pyMax_ge (score (_norm search_term)) h t h' hh'
      have h1 := score_snd (_norm search_term) h'
      have h2 := score_snd (_norm search_term)
        (pyMax (score (_norm search_term)) h t)
      unfold tupLe at hle
      omega

/-- Witness for C4 at the spec's own example: query `"u2"`, exact match
listed second. -/
theorem pick_best_maximizes_witness :
    u2Hits ≠ [] ∧
    ∃ best ∈ u2Hits,
      _pick_best_artist "u2" u2Hits = some best.result.primary_artist ∧
      (∀ h ∈ u2Hits, tupLe (score (_norm "u2") h) (score (_norm "u2") best)) ∧
      ((∃ e ∈ u2Hits, _norm e.result.primary_artist.name = _norm "u2") →
        _norm best.result.primary_artist.name = _norm "u2") ∧
      (∀ h ∈ u2Hits,
        (score (_norm "u2") h).1 = (score (_norm "u2") best).1 →
        best.result.primary_artist.name.length
          ≤ h.result.primary_artist.name.length) :=
  ⟨by decide, pick_best_maximizes "u2" u2Hits (by decide)⟩

/-- C8: the matcher returns `none` exactly on the empty hit list; any
non-empty list yields some candidate, even when nothing matches. -/
theorem pick_best_none_iff_empty (search_term : String) (hits : List Hit) :
    _pick_best_artist search_term hits = none ↔ hits = [] := by
  cases hits <;> simp [_pick_best_artist]

/-- C5: `get_artist` converts every observable remote failure — timeout,
connection failure, non-2xx status, malformed payload — into the
returned value `none`: a failing search call yields `(none, [search])`,
and a failing detail fetch after a successful search and match yields
`(none, [search, fetch])`.  No case escapes as an exception: the result
is always a returned `Option` value. -/
theorem get_artist_converts_failures (api : RemoteAPI) (term : String) :
    ((∀ hits, api.search term ≠ .ok hits) →
      get_artist api term = (none, [ApiCall.search term])) ∧
    (∀ hits primary aid, api.search term = .ok hits →
      _pick_best_artist term hits = some primary → primary.id = some aid →
      (∀ p, api.fetchArtist aid ≠ .ok p) →
      get_artist api term
        = (none, [ApiCall.search term, ApiCall.fetchArtist aid])) := by
  constructor
  · intro hfail
    cases hs : api.search term with
    | ok hits => exact absurd hs (hfail hits)
    | timeout => simp [get_artist, hs]
    | connFailure => simp [get_artist, hs]
    | httpStatus c => simp [get_artist, hs]
    | badPayload => simp [get_artist, hs]
  · intro hits primary aid hs hp hid hf
    cases hfetch : api.fetchArtist aid with
    | ok p => exact absurd hfetch (hf p)
    | timeout => simp [get_artist, hs, hp, hid, hfetch]
    | connFailure => simp [get_artist, hs, hp, hid, hfetch]
    | httpStatus c => simp [get_artist, hs, hp, hid, hfetch]
    | badPayload => simp [get_artist, hs, hp, hid, hfetch]

/-- Witness for C5: a timed-out search and a 503 detail fetch, both at
concrete inputs. -/
theorem get_artist_converts_failures_witness :
    (∀ hits, downApi.search "Radiohead" ≠ .ok hits) ∧
    get_artist downApi "Radiohead" = (none, [ApiCall.search "Radiohead"]) ∧
    flakyApi.search "Radiohead" = .ok [rhHit] ∧
    _pick_best_artist "Radiohead" [rhHit] = some rhHit.result.primary_artist ∧
    rhHit.result.primary_artist.id = some 604 ∧
    (∀ p, flakyApi.fetchArtist 604 ≠ .ok p) ∧
    get_artist flakyApi "Radiohead"
      = (none, [ApiCall.search "Radiohead", ApiCall.fetchArtist 604]) :=
  ⟨fun _ h => ApiResult.noConfusion h,
   (get_artist_converts_failures downApi "Radiohead").1
     (fun _ h => ApiResult.noConfusion h),
   rfl, by decide, rfl,
   fun _ h => ApiResult.noConfusion h,
   (get_artist_converts_failures flakyApi "Radiohead").2
     [rhHit] rhHit.result.primary_artist 604 rfl (by decide) rfl
     (fun _ h => ApiResult.noConfusion h)⟩

/-- C9: when the matcher's winner carries no usable `id`, `get_artist`
returns `none` and its network trace is the single search call — the
detail fetch is never issued. -/
theorem get_artist_missing_id_skips_fetch (api : RemoteAPI) (term : String)
    (hits : List Hit) (primary : PrimaryArtist)
    (hs : api.search term = .ok hits)
    (hp : _pick_best_artist term hits = some primary)
    (hid : primary.id = none) :
    get_artist api term = (none, [ApiCall.search term]) := by
  simp [get_artist, hs, hp, hid]

/-- Witness for C9: a concrete API whose only hit has no id. -/
theorem get_artist_missing_id_skips_fetch_witness :
    noIdApi.search "Radiohead" = .ok [⟨⟨⟨"Radiohead", none⟩⟩⟩] ∧
    _pick_best_artist "Radiohead" [⟨⟨⟨"Radiohead", none⟩⟩⟩]
      = some ⟨"Radiohead", none⟩ ∧
    (⟨"Radiohead", none⟩ : PrimaryArtist).id = none ∧
    get_artist noIdApi "Radiohead" = (none, [ApiCall.search "Radiohead"]) :=
  ⟨rfl, by decide, rfl,
   get_artist_missing_id_skips_fetch noIdApi "Radiohead"
     [⟨⟨⟨"Radiohead", none⟩⟩⟩] ⟨"Radiohead", none⟩ rfl (by decide) rfl⟩

/-- C2, evaluated at a concrete Found input: the search succeeds, the
candidate is matched, the detail fetch succeeds and returns `rhPayload`,
whose record fields under `response.artist` are populated — yet
`_worker`'s row (and `fetch_batch`'s row) carries `none` in every artist
field, because both read `name`/`id`/`followers_count` off the top level
of the payload instead of unwrapping `response.artist` the way
`Genius.get_artists` does. -/
theorem worker_drops_found_fields :
    (get_artist rhApi "Radiohead").1 = some rhPayload ∧
    pyDictGet (jGetD (jGetD rhPayload "response" (.jobj [])) "artist"
        (.jobj [])) "name" = some (.jstr "Radiohead") ∧
    _worker (fun t => (get_artist rhApi t).1) "Radiohead"
      = { search_term := "Radiohead", artist_name := none,
          artist_id := none, followers_count := none } ∧
    get_artists_row (fun t => (get_artist rhApi t).1) "Radiohead"
      = { search_term := "Radiohead",
          artist_name := some (.jstr "Radiohead"),
          artist_id := some (.jnum 604),
          followers_count := some (.jnum 12345) } ∧
    rowOf (fun t => (get_artist rhApi t).1) "Radiohead"
      = { search_term := "Radiohead", artist_name := none,
          artist_id := none, followers_count := none, url := none,
          image_url := none } :=
  ⟨rfl, rfl, rfl, rfl, rfl⟩

/-- Counterexample to C1 as stated: with inputs `["A", "B"]` and the
legitimate completion order `[1, 0]` (B's future completes first),
`fetch_batch` emits the rows as `B, A` — not in submission order — and
the table differs from the one produced by the completion order
`[0, 1]`, so the output is not a function of the inputs and remote
responses alone. -/
theorem fetch_batch_not_submission_order :
    [1, 0].Perm (List.range (usableTerms ["A", "B"]).length) ∧
    usableTerms ["A", "B"] = ["A", "B"] ∧
    (fetch_batch noResolver ["A", "B"] [1, 0]).map ResultRow.search_term
      = ["B", "A"] ∧
    (fetch_batch noResolver ["A", "B"] [1, 0]).map ResultRow.search_term
      ≠ usableTerms ["A", "B"] ∧
    (fetch_batch noResolver ["A", "B"] [1, 0]).map ResultRow.search_term
      ≠ (fetch_batch noResolver ["A", "B"] [0, 1]).map ResultRow.search_term := by
  refine ⟨by decide, by decide, by decide, by decide, by decide⟩

/-- C1 amended: for any completion order (a permutation of the submitted
indices), `fetch_batch` emits the rows in completion order, not
submission order; row `j` still pairs the `order j`-th usable query with
that query's own outcome, and the rows are, as a multiset, exactly one
row per usable query — so the output is a function of input order,
remote responses, and completion order, identical across reruns only
when the completion order also repeats. -/
theorem fetch_batch_completion_order (resolve : String → Option JVal)
    (artists : List String) (order : List Nat)
    (hperm : order.Perm (List.range (usableTerms artists).length)) :
    (fetch_batch resolve artists order).Perm
        ((usableTerms artists).map (rowOf resolve)) ∧
    (∀ j i, order.get? j = some i →
      ∃ t, (usableTerms artists).get? i = some t ∧
        (fetch_batch resolve artists order).get? j
          = some (rowOf resolve t)) := by
  constructor
  · have h1 := hperm.filterMap
      (fun i => ((usableTerms artists).get? i).map (rowOf resolve))
    rw [filterMap_get_range] at h1
    exact h1
  · intro j i hj
    exact fb_row_at_index (rowOf resolve) (usableTerms artists) order
      (mem_lt_of_perm_range hperm) j i hj

/-- Witness for the amended C1 at a concrete batch and completion order. -/
theorem fetch_batch_completion_order_witness :
    [1, 0].Perm (List.range (usableTerms ["A", "B"]).length) ∧
    ((fetch_batch noResolver ["A", "B"] [1, 0]).Perm
        ((usableTerms ["A", "B"]).map (rowOf noResolver)) ∧
     (∀ j i, [1, 0].get? j = some i →
       ∃ t, (usableTerms ["A", "B"]).get? i = some t ∧
         (fetch_batch noResolver ["A", "B"] [1, 0]).get? j
           = some (rowOf noResolver t))) :=
  ⟨by decide,
   fetch_batch_completion_order noResolver ["A", "B"] [1, 0] (by decide)⟩

/-- C6: for any completion order covering the submitted futures,
`fetch_batch` returns exactly one row per usable input query (their
search terms are a permutation of the usable queries, so the batch
always completes in full), each row is determined by its own query
alone — so one item's failure cannot abort, retry, or perturb another
item's row — and a query whose resolution fails yields the row with all
artist fields null. -/
theorem fetch_batch_one_row_per_query (resolve : String → Option JVal)
    (artists : List String) (order : List Nat)
    (hperm : order.Perm (List.range (usableTerms artists).length)) :
    (fetch_batch resolve artists order).length
      = (usableTerms artists).length ∧
    ((fetch_batch resolve artists order).map ResultRow.search_term).Perm
        (usableTerms artists) ∧
    (∀ row ∈ fetch_batch resolve artists order,
      row = rowOf resolve row.search_term) ∧
    (∀ t, resolve t = none →
      rowOf resolve t
        = { search_term := t, artist_name := none, artist_id := none,
            followers_count := none, url := none, image_url := none }) := by
  have hp2 := hperm.filterMap
    (fun i => ((usableTerms artists).get? i).map (rowOf resolve))
  rw [filterMap_get_range] at hp2
  refine ⟨?_, ?_, ?_, ?_⟩
  · have hlen := hp2.length_eq
    rw [List.length_map] at hlen
    exact hlen
  · have hmap := hp2.map ResultRow.search_term
    have hcomp : (ResultRow.search_term ∘ rowOf resolve) = id := by
      funext t; rfl
    rw [List.map_map, hcomp, List.map_id] at hmap
    exact hmap
  · intro row hrow
    have hmem := hp2.mem_iff.mp hrow
    obtain ⟨t, ht, rfl⟩ := List.mem_map.mp hmem
    rfl
  · intro t ht
    simp [rowOf, optGet, ht]

/-- Witness for C6: a three-name batch in which every resolution fails,
completed in the order C, A, B. -/
theorem fetch_batch_one_row_per_query_witness :
    [2, 0, 1].Perm (List.range (usableTerms ["A", "B", "C"]).length) ∧
    ((fetch_batch noResolver ["A", "B", "C"] [2, 0, 1]).length
        = (usableTerms ["A", "B", "C"]).length ∧
     ((fetch_batch noResolver ["A", "B", "C"] [2, 0, 1]).map
        ResultRow.search_term).Perm (usableTerms ["A", "B", "C"]) ∧
     (∀ row ∈ fetch_batch noResolver ["A", "B", "C"] [2, 0, 1],
       row = rowOf noResolver row.search_term) ∧
     (∀ t, noResolver t = none →
       rowOf noResolver t
         = { search_term := t, artist_name := none, artist_id := none,
             followers_count := none, url := none, image_url := none })) :=
  ⟨by decide,
   fetch_batch_one_row_per_query noResolver ["A", "B", "C"] [2, 0, 1]
     (by decide)⟩

/-- Counterexample to C3 as stated: `"Radiohead"` and `"radiohead "`
normalize identically (and `fetch_batch` submits the stripped
`"radiohead"`), yet two lookups within the TTL each invoke the
underlying resolver — the `st.cache_data` store is keyed by the exact
argument string, not by `_norm` of it, so the network path runs twice,
not once. -/
theorem cache_not_normalized_key :
    _norm "Radiohead" = _norm "radiohead " ∧
    pyStrip "radiohead " = "radiohead" ∧
    (cached_get_artist noResolver cache_ttl 0 [] "Radiohead").2.2 = 1 ∧
    (cached_get_artist noResolver cache_ttl 1
        (cached_get_artist noResolver cache_ttl 0 [] "Radiohead").2.1
        "radiohead").2.2 = 1 :=
  ⟨by decide, by decide, rfl, rfl⟩

/-- C3 amended: the cache is keyed by the exact query string.  If a
lookup at time `t` ran the resolver (a miss or an expired entry), then a
second lookup of the same string at any `t' < t + 600` is a pure cache
hit: it returns the stored outcome, leaves the store unchanged, and
performs zero resolver invocations. -/
theorem cache_exact_key_hit (resolve : String → Option JVal) (t t' : Nat)
    (c : CacheMap) (name : String)
    (hmiss : (cached_get_artist resolve cache_ttl t c name).2.2 = 1)
    (hlive : t' < t + cache_ttl) :
    cached_get_artist resolve cache_ttl t'
        (cached_get_artist resolve cache_ttl t c name).2.1 name
      = ((cached_get_artist resolve cache_ttl t c name).1,
         (cached_get_artist resolve cache_ttl t c name).2.1, 0) := by
  unfold cached_get_artist at *
  cases hl : List.lookup name c with
  | none =>
    simp only [hl] at hmiss ⊢
    simp [List.lookup, hlive]
  | some e =>
    simp only [hl] at hmiss ⊢
    by_cases hfresh : t < e.ts + cache_ttl
    · simp [hfresh] at hmiss
    · simp only [if_neg hfresh]
      simp [List.lookup, hlive]

/-- Witness for the amended C3: a miss at time 0 followed by a hit at
time 5 for the identical key. -/
theorem cache_exact_key_hit_witness :
    (cached_get_artist noResolver cache_ttl 0 [] "Radiohead").2.2 = 1 ∧
    (5 : Nat) < 0 + cache_ttl ∧
    cached_get_artist noResolver cache_ttl 5
        (cached_get_artist noResolver cache_ttl 0 [] "Radiohead").2.1
        "Radiohead"
      = ((cached_get_artist noResolver cache_ttl 0 [] "Radiohead").1,
         (cached_get_artist noResolver cache_ttl 0 [] "Radiohead").2.1, 0) :=
  ⟨rfl, by decide,
   cache_exact_key_hit noResolver 0 5 [] "Radiohead" rfl (by decide)⟩

/-- C7: in every state a `k`-worker pool can reach, at most `k` tasks
are running — a task starts only while fewer than `k` run — and the
bound is the `max_workers` argument of `fetch_batch`, whose default is 6
and which the sidebar slider confines to 1..16 with initial value 6. -/
theorem pool_concurrency_bound (k : Nat) (tasks : List Nat) (s : PoolState)
    (h : PoolReachable k tasks s) :
    s.running.length ≤ k ∧
    fetch_batch_default_workers = 6 ∧
    parallel_workers_slider = { minVal := 1, maxVal := 16, initial := 6 } := by
  refine ⟨?_, rfl, rfl⟩
  induction h with
  | init => simp [initPool]
  | step hreach hstep ih =>
    cases hstep with
    | start t rest s hp hlt =>
      simp only [List.length_cons]
      omega
    | finish t s ht =>
      exact le_trans (List.erase_sublist _ _).length_le ih

/-- Witness for C7: with 2 workers and 3 tasks, the state reached after
starting tasks 0 and 1 is reachable and respects the bound. -/
theorem pool_concurrency_bound_witness :
    PoolReachable 2 [0, 1, 2] ⟨[2], [1, 0], []⟩ ∧
    ((⟨[2], [1, 0], []⟩ : PoolState).running.length ≤ 2 ∧
     fetch_batch_default_workers = 6 ∧
     parallel_workers_slider = { minVal := 1, maxVal := 16, initial := 6 }) := by
  have h1 : PoolStep 2 (initPool [0, 1, 2]) ⟨[1, 2], [0], []⟩ :=
    PoolStep.start 0 [1, 2] (initPool [0, 1, 2]) rfl (by decide)
  have h2 : PoolStep 2 ⟨[1, 2], [0], []⟩ ⟨[2], [1, 0], []⟩ :=
    PoolStep.start 1 [2] ⟨[1, 2], [0], []⟩ rfl (by decide)
  have hreach : PoolReachable 2 [0, 1, 2] ⟨[2], [1, 0], []⟩ :=
    PoolReachable.step (PoolReachable.step PoolReachable.init h1) h2
  exact ⟨hreach, pool_concurrency_bound 2 [0, 1, 2] ⟨[2], [1, 0], []⟩ hreach⟩

/-- C10: `read_artists` fails with an error precisely when, after
dropping blank, whitespace-only, and `#`-prefixed lines, no usable
artist name remains; it never returns an empty list, so a file of only
such lines aborts the run before any resolution starts. -/
theorem read_artists_rejects_empty (contents : String) :
    ((∃ e, read_artists contents = .error e) ↔ usableArtists contents = []) ∧
    (∀ l, read_artists contents = .ok l →
      l = usableArtists contents ∧ l ≠ []) := by
  by_cases h : usableArtists contents = []
  · unfold read_artists
    simp [h]
  · unfold read_artists
    simp [h, List.isEmpty_iff]

/-- Witness for C10: a file holding only a comment line, a blank line,
and a whitespace-only line is rejected. -/
theorem read_artists_rejects_empty_witness :
    usableArtists "# only a comment\n\n   \n" = [] ∧
    (∃ e, read_artists "# only a comment\n\n   \n" = .error e) :=
  ⟨by decide,
   (read_artists_rejects_empty "# only a comment\n\n   \n").1.mpr (by decide)⟩

end Week6
